import Mathlib

/-!
Verification of the Legado rule interpreter (rule-chain splitter, rule
classifier, CSS→XPath compiler, step-execution pipeline, template expander,
and the script-bridge MD5 helpers) against its specification.

C++ `std::string` values are modelled as `List Char`; the two external
engines (the HTML/XPath engine and the QuickJS script engine) are modelled
as function parameters, as the spec treats them as external collaborators.
-/

/-- Convert a string literal to the `List Char` representation used for
`std::string` values. -/
def cs (s : String) : List Char := s.toList

/-- `std::string::find(pat)`: index of the first occurrence of `pat`,
`none` when absent (`npos`). -/
def findSub : List Char → List Char → Option Nat
  | l, pat =>
    match l with
    | [] => if pat = [] then some 0 else none
    | _ :: t => if pat.isPrefixOf l then some 0 else (findSub t pat).map (· + 1)

/-- `std::string::find(ch)`: index of the first occurrence of a character. -/
def findChar : List Char → Char → Option Nat
  | [], _ => none
  | x :: t, c => if x = c then some 0 else (findChar t c).map (· + 1)

/-- `rule.find(pat) != std::string::npos`. -/
def containsSub (l pat : List Char) : Bool := (findSub l pat).isSome

/-- The template opening marker (two opening braces). -/
def tOpen : List Char := cs "\x7b\x7b"

/-- The template closing marker (two closing braces). -/
def tClose : List Char := cs "\x7d\x7d"

/-- `LegadoRuleParser::SplitRule` (LegadoRuleParser.cpp): split a rule into
base rule and JS rule.  Checks `@js:` first, then a `<js>`/`</js>` pair
(without comparing their positions), else no JS part. -/
def legado_SplitRule (rule : List Char) : List Char × List Char :=
  match findSub rule (cs "@js:") with
  | some jsPos => (rule.take jsPos, rule.drop (jsPos + 4))
  | none =>
    match findSub rule (cs "<js>"), findSub rule (cs "</js>") with
    | some jsStart, some jsEnd =>
      (rule.take jsStart, (rule.drop (jsStart + 4)).take (jsEnd - jsStart - 4))
    | _, _ => (rule, [])

/-- `JsRuleProcessor::ParseRule` (JsRuleProcessor.cpp): split a rule into
(xpathPart, jsPart, isTemplate).  Checks `@js:`, then a `<js>`/`</js>` pair
with the close tag strictly after the open tag, then a complete
template-marker pair, else the whole rule is the xpath part. -/
def jsrp_ParseRule (rule : List Char) : List Char × List Char × Bool :=
  if rule = [] then ([], [], false)
  else
    match findSub rule (cs "@js:") with
    | some jsPos => (rule.take jsPos, rule.drop (jsPos + 4), false)
    | none =>
      let jsTag : Option (Nat × Nat) :=
        match findSub rule (cs "<js>"), findSub rule (cs "</js>") with
        | some startTag, some endTag =>
          if startTag < endTag then some (startTag, endTag) else none
        | _, _ => none
      match jsTag with
      | some (startTag, endTag) =>
        (rule.take startTag, (rule.drop (startTag + 4)).take (endTag - startTag - 4), false)
      | none =>
        if containsSub rule tOpen && containsSub rule tClose then ([], rule, true)
        else (rule, [], false)

/-- The rule-chain splitter as worded by spec section 4.1: four ordered
rules, first match wins. -/
def split_spec (rule : List Char) : List Char × List Char × Bool :=
  if containsSub rule (cs "@js:") then
    match findSub rule (cs "@js:") with
    | some pos => (rule.take pos, rule.drop (pos + 4), false)
    | none => (rule, [], false)
  else if (match findSub rule (cs "<js>"), findSub rule (cs "</js>") with
           | some s, some e => decide (s < e)
           | _, _ => false) then
    match findSub rule (cs "<js>"), findSub rule (cs "</js>") with
    | some s, some e => (rule.take s, (rule.drop (s + 4)).take (e - (s + 4)), false)
    | _, _ => (rule, [], false)
  else if containsSub rule tOpen && containsSub rule tClose then ([], rule, true)
  else (rule, [], false)

/-- Whitespace characters skipped by `std::istream` extraction (`isspace`
in the C locale). -/
def isCppSpace (c : Char) : Bool :=
  c = ' ' || c = '\t' || c = '\n' || c = '\x0b' || c = '\x0c' || c = '\r'

/-- Helper for `cppWords`: accumulate the current token in reverse. -/
def cppWordsAux : List Char → List Char → List (List Char)
  | [], acc => if acc = [] then [] else [acc.reverse]
  | c :: rest, acc =>
    if isCppSpace c then
      if acc = [] then cppWordsAux rest [] else acc.reverse :: cppWordsAux rest []
    else cppWordsAux rest (c :: acc)

/-- `while (iss >> part) parts.push_back(part)`: whitespace-separated
tokens of a string, empty tokens skipped. -/
def cppWords (l : List Char) : List (List Char) := cppWordsAux l []

/-- Double-quote character. -/
def dqc : Char := Char.ofNat 34

/-- Single-quote character. -/
def sqc : Char := Char.ofNat 39

/-- Characters ending the tag/class/id scans inside one selector part
(`p[pos] != '.' && p[pos] != '#' && p[pos] != '['`). -/
def notDelim (c : Char) : Bool := !(c = '.' || c = '#' || c = '[')

/-- The fields parsed out of one space-separated selector part by
`LegadoRuleParser::CssToXPath`. -/
structure CssPart where
  tag : List Char
  className : List Char
  idName : List Char
  attrName : List Char
  attrValue : List Char
deriving DecidableEq

/-- The per-part scanner of `LegadoRuleParser::CssToXPath`: tag, then at
most one `.class`, then at most one `#id`, then at most one
`[attr]`/`[attr=value]` (quotes around the value skipped), scanned in this
order by a single forward pass. -/
def legado_parsePart (p : List Char) : CssPart :=
  let tagRaw := p.takeWhile notDelim
  let r1 := p.dropWhile notDelim
  let tag := if tagRaw = [] then cs "*" else tagRaw
  let cls :=
    match r1 with
    | c :: t => if c = '.' then (t.takeWhile notDelim, t.dropWhile notDelim) else ([], r1)
    | [] => ([], [])
  let ids :=
    match cls.2 with
    | c :: t => if c = '#' then (t.takeWhile notDelim, t.dropWhile notDelim) else ([], cls.2)
    | [] => ([], [])
  let attrs :=
    match ids.2 with
    | c :: t =>
      if c = '[' then
        let an := t.takeWhile (fun x => !(x = '=' || x = ']'))
        let r4 := t.dropWhile (fun x => !(x = '=' || x = ']'))
        match r4 with
        | c2 :: t2 =>
          if c2 = '=' then
            let t3 :=
              match t2 with
              | c3 :: t3x => if c3 = dqc || c3 = sqc then t3x else t2
              | [] => []
            (an, t3.takeWhile (fun x => !(x = dqc || x = sqc || x = ']')))
          else (an, [])
        | [] => (an, [])
      else ([], [])
    | [] => ([], [])
  ⟨tag, cls.1, ids.1, attrs.1, attrs.2⟩

/-- The bracketed predicate built by `CssToXPath` for one part: class, id
and attribute conditions joined by " and " in this fixed order. -/
def legado_buildPredicate (className idName attrName attrValue : List Char) : List Char :=
  let pred1 : List Char :=
    if className ≠ [] then cs "contains(@class,\x27" ++ className ++ cs "\x27)" else []
  let pred2 :=
    if idName ≠ [] then
      (if pred1 ≠ [] then pred1 ++ cs " and " else pred1) ++ cs "@id=\x27" ++ idName ++ cs "\x27"
    else pred1
  let pred3 :=
    if attrName ≠ [] then
      (if pred2 ≠ [] then pred2 ++ cs " and " else pred2) ++
        (if attrValue ≠ [] then cs "@" ++ attrName ++ cs "=\x27" ++ attrValue ++ cs "\x27"
         else cs "@" ++ attrName)
    else pred2
  pred3

/-- XPath fragment emitted for one selector part: `/` + tag (or `*`) +
the bracketed predicate when non-empty. -/
def legado_compilePart (p : List Char) : List Char :=
  let r := legado_parsePart p
  let pred := legado_buildPredicate r.className r.idName r.attrName r.attrValue
  cs "/" ++ (if r.tag = [] then cs "*" else r.tag) ++
    (if pred ≠ [] then cs "[" ++ pred ++ cs "]" else [])

/-- The selector-body compilation of `CssToXPath`: `xpath = "/"` followed
by one fragment per whitespace-separated part. -/
def legado_cssBody (selector : List Char) : List Char :=
  cs "/" ++ ((cppWords selector).map legado_compilePart).flatten

/-- The attribute-extraction suffix of `CssToXPath`, appended only when
the part after the first `@` is non-empty. -/
def legado_attrSuffix (attrExtract : List Char) : List Char :=
  if attrExtract = [] then []
  else if attrExtract = cs "text" then cs "/text()"
  else if attrExtract = cs "html" || attrExtract = cs "innerHtml" then []
  else cs "/@" ++ attrExtract

/-- `LegadoRuleParser::CssToXPath`: split the selector at the first `@`
(only when it is not the first character) into selector and attribute
extractor, compile the selector body, append the attribute suffix. -/
def legado_CssToXPath (css : List Char) : List Char :=
  let selAttr : List Char × List Char :=
    match findChar css '@' with
    | some p => if 0 < p then (css.take p, css.drop (p + 1)) else (css, [])
    | none => (css, [])
  legado_cssBody selAttr.1 ++ legado_attrSuffix selAttr.2

/-- The selector kinds distinguished by `LegadoRuleParser::ParseRule`. -/
inductive SelectorKind where
  | css
  | jsonPath
  | xpath
  | jsoupDefault
deriving DecidableEq

/-- The ordered dispatch of `LegadoRuleParser::ParseRule` on the base rule:
`@css:` then `@json:`/`$.` then `//`/`@XPath:` then the JSOUP default,
together with the body each branch passes on. -/
def legado_classify (baseRule : List Char) : SelectorKind × List Char :=
  if (cs "@css:").isPrefixOf baseRule then (SelectorKind.css, baseRule.drop 5)
  else if (cs "@json:").isPrefixOf baseRule || (cs "$.").isPrefixOf baseRule then
    (SelectorKind.jsonPath,
      if (cs "@json:").isPrefixOf baseRule then baseRule.drop 6 else baseRule)
  else if (cs "//").isPrefixOf baseRule || (cs "@XPath:").isPrefixOf baseRule then
    (SelectorKind.xpath,
      if (cs "@XPath:").isPrefixOf baseRule then baseRule.drop 7 else baseRule)
  else (SelectorKind.jsoupDefault, baseRule)

/-- `is_xpath_rule` (LegadoConverter.cpp): a rule is XPath when it starts
with `//`, `@XPath:` or lowercase `@xpath:`. -/
def is_xpath_rule (rule : List Char) : Bool :=
  if rule = [] then false
  else if (cs "//").isPrefixOf rule then true
  else if (cs "@XPath:").isPrefixOf rule then true
  else if (cs "@xpath:").isPrefixOf rule then true
  else false

/-- Result of one parse phase: the `int` return code, the result vector,
and the parser's `m_hasError`/`m_lastError` state. -/
structure PhaseOut where
  ret : Int
  results : List (List Char)
  hasError : Bool
  lastError : List Char
deriving DecidableEq

/-- State threaded through the per-item JS loop of
`LegadoRuleParser::ParseRule`: the output vector `value` and the
`m_hasError`/`m_lastError` flags. -/
structure TailState where
  value : List (List Char)
  hasError : Bool
  lastError : List Char
deriving DecidableEq

/-- `LegadoRuleParser::ParseXPathRule`: delegate to the external HTML/XPath
engine, modelled as a function from (html, xpath) to (return code,
extracted strings). -/
def legado_ParseXPathRule (xpE : List Char → List Char → Int × List (List Char))
    (html xpath : List Char) : PhaseOut :=
  let r := xpE html xpath
  ⟨r.1, r.2, false, []⟩

/-- `LegadoRuleParser::ParseCssRule`: convert the CSS selector to XPath;
an empty conversion result is a compile error (return 1), otherwise
delegate to the XPath engine. -/
def legado_ParseCssRule (xpE : List Char → List Char → Int × List (List Char))
    (html css : List Char) : PhaseOut :=
  let xpath := legado_CssToXPath css
  if xpath = [] then ⟨1, [], true, cs "Failed to convert CSS to XPath: " ++ css⟩
  else legado_ParseXPathRule xpE html xpath

/-- `LegadoRuleParser::ParseJsonPathRule`: rewrite the JSONPath into script
code `var data = JSON.parse(result); data.<path>` (leading `$.` stripped)
and evaluate it with `result` bound to the content; the script engine is
modelled as a function from (result variable, code) to result or error. -/
def legado_ParseJsonPathRule
    (jsEval : List Char → List Char → Except (List Char) (List Char))
    (content jsonpath : List Char) : PhaseOut :=
  let jsCode :=
    if (cs "$.").isPrefixOf jsonpath then
      cs "var data = JSON.parse(result); data." ++ jsonpath.drop 2
    else cs "var data = JSON.parse(result); data." ++ jsonpath
  match jsEval content jsCode with
  | Except.ok r => ⟨0, [r], false, []⟩
  | Except.error e => ⟨1, [], true, e⟩

/-- The base phase of `LegadoRuleParser::ParseRule`: an empty base rule
passes the whole content through as the single result; otherwise dispatch
on the classified kind, where the JSOUP default branch first converts to
XPath and passes the content through when the conversion is empty. -/
def legado_basePhase (xpE : List Char → List Char → Int × List (List Char))
    (jsEval : List Char → List Char → Except (List Char) (List Char))
    (html baseRule : List Char) : PhaseOut :=
  if baseRule = [] then ⟨0, [html], false, []⟩
  else
    match legado_classify baseRule with
    | (SelectorKind.css, body) => legado_ParseCssRule xpE html body
    | (SelectorKind.jsonPath, body) => legado_ParseJsonPathRule jsEval html body
    | (SelectorKind.xpath, body) => legado_ParseXPathRule xpE html body
    | (SelectorKind.jsoupDefault, body) =>
      let xpath := legado_CssToXPath body
      if xpath ≠ [] then legado_ParseXPathRule xpE html xpath
      else ⟨0, [html], false, []⟩

/-- The per-item JS loop of `LegadoRuleParser::ParseRule`: for each base
result (unless `stop` is signalled), bind `result` to the item and evaluate
the JS rule; on success append the evaluation result, on engine failure
append the item unchanged, set `m_hasError` and record the engine's
message as `m_lastError`. -/
def legado_jsLoop (jsEval : List Char → List Char → Except (List Char) (List Char))
    (jsRule : List Char) (stop : Bool) : List (List Char) → TailState → TailState
  | [], st => st
  | item :: rest, st =>
    if stop then st
    else
      match jsEval item jsRule with
      | Except.ok jsResult =>
        legado_jsLoop jsEval jsRule stop rest ⟨st.value ++ [jsResult], st.hasError, st.lastError⟩
      | Except.error e =>
        legado_jsLoop jsEval jsRule stop rest ⟨st.value ++ [item], true, e⟩

/-- `LegadoRuleParser::ParseRule`: reset the error state, return
immediately on an empty rule, split the rule, run the base phase (a
non-zero return aborts with no results), then apply the JS rule to every
base result, or return the base results verbatim when there is no JS
rule. -/
def legado_ParseRule (xpE : List Char → List Char → Int × List (List Char))
    (jsEval : List Char → List Char → Except (List Char) (List Char))
    (html rule : List Char) (stop : Bool) : PhaseOut :=
  if rule = [] then ⟨0, [], false, []⟩
  else
    let s := legado_SplitRule rule
    let b := legado_basePhase xpE jsEval html s.1
    if b.ret ≠ 0 then ⟨b.ret, [], b.hasError, b.lastError⟩
    else if s.2 ≠ [] then
      let st := legado_jsLoop jsEval s.2 stop b.results ⟨[], b.hasError, b.lastError⟩
      ⟨0, st.value, st.hasError, st.lastError⟩
    else ⟨0, b.results, b.hasError, b.lastError⟩

/-- Fuelled scan of `QuickJsEngine::processTemplate`: find the next
template opening marker (absent: copy the rest), find the closing marker
after it (absent: copy the rest including the lone opening marker),
otherwise evaluate the text between the markers in the script engine,
append its result, continue after the closing marker. -/
def processTemplateAux (ev : List Char → List Char) : Nat → List Char → List Char
  | 0, t => t
  | Nat.succ fuel, t =>
    match findSub t tOpen with
    | none => t
    | some start =>
      match findSub (t.drop start) tClose with
      | none => t.take start ++ t.drop start
      | some r =>
        t.take start ++ ev ((t.drop (start + 2)).take (r - 2)) ++
          processTemplateAux ev fuel (t.drop (start + r + 2))

/-- `QuickJsEngine::processTemplate`: the scan needs at most one step per
two characters, so the string's length is sufficient fuel. -/
def processTemplate (ev : List Char → List Char) (templateStr : List Char) : List Char :=
  processTemplateAux ev templateStr.length templateStr

/-- Truncation to 32 bits (`uint32_t` arithmetic). -/
def m32 (n : Nat) : Nat := n % 4294967296

/-- `ROTATE_LEFT(x, n) = (x << n) | (x >> (32 - n))` on `uint32_t`. -/
def rotl32 (x n : Nat) : Nat := m32 ((x <<< n) ||| (x >>> (32 - n)))

/-- Bitwise complement on 32 bits (`~x`). -/
def cnot32 (x : Nat) : Nat := 4294967295 - m32 x

/-- `F(x,y,z) = (x & y) | (~x & z)`. -/
def md5F (x y z : Nat) : Nat := (x &&& y) ||| (cnot32 x &&& z)

/-- `G(x,y,z) = (x & z) | (y & ~z)`. -/
def md5G (x y z : Nat) : Nat := (x &&& z) ||| (y &&& cnot32 z)

/-- `H(x,y,z) = x ^ y ^ z`. -/
def md5H (x y z : Nat) : Nat := (x ^^^ y) ^^^ z

/-- `I(x,y,z) = y ^ (x | ~z)`. -/
def md5I (x y z : Nat) : Nat := y ^^^ (x ||| cnot32 z)

/-- `FF(a,b,c,d,x,s,ac)`: one round-1 step. -/
def md5FF (a b c d x s ac : Nat) : Nat :=
  m32 (rotl32 (m32 (a + md5F b c d + x + ac)) s + b)

/-- `GG(a,b,c,d,x,s,ac)`: one round-2 step. -/
def md5GG (a b c d x s ac : Nat) : Nat :=
  m32 (rotl32 (m32 (a + md5G b c d + x + ac)) s + b)

/-- `HH(a,b,c,d,x,s,ac)`: one round-3 step. -/
def md5HH (a b c d x s ac : Nat) : Nat :=
  m32 (rotl32 (m32 (a + md5H b c d + x + ac)) s + b)

/-- `II(a,b,c,d,x,s,ac)`: one round-4 step. -/
def md5II (a b c d x s ac : Nat) : Nat :=
  m32 (rotl32 (m32 (a + md5I b c d + x + ac)) s + b)

/-- Decode the `i`-th little-endian 32-bit word of a 64-byte block. -/
def md5X (block : List Nat) (i : Nat) : Nat :=
  block.getD (4 * i) 0 ||| (block.getD (4 * i + 1) 0 <<< 8) |||
    (block.getD (4 * i + 2) 0 <<< 16) ||| (block.getD (4 * i + 3) 0 <<< 24)

/-- `md5_transform` (QuickJsEngine.cpp): the 64-step MD5 compression
function on one 64-byte block. -/
def md5_transform (st : Nat × Nat × Nat × Nat) (block : List Nat) : Nat × Nat × Nat × Nat :=
  let x := md5X block
  let a0 := st.1
  let b0 := st.2.1
  let c0 := st.2.2.1
  let d0 := st.2.2.2
  -- Round 1
  let a1 := md5FF a0 b0 c0 d0 (x 0) 7 0xd76aa478
  let d1 := md5FF d0 a1 b0 c0 (x 1) 12 0xe8c7b756
  let c1 := md5FF c0 d1 a1 b0 (x 2) 17 0x242070db
  let b1 := md5FF b0 c1 d1 a1 (x 3) 22 0xc1bdceee
  let a2 := md5FF a1 b1 c1 d1 (x 4) 7 0xf57c0faf
  let d2 := md5FF d1 a2 b1 c1 (x 5) 12 0x4787c62a
  let c2 := md5FF c1 d2 a2 b1 (x 6) 17 0xa8304613
  let b2 := md5FF b1 c2 d2 a2 (x 7) 22 0xfd469501
  let a3 := md5FF a2 b2 c2 d2 (x 8) 7 0x698098d8
  let d3 := md5FF d2 a3 b2 c2 (x 9) 12 0x8b44f7af
  let c3 := md5FF c2 d3 a3 b2 (x 10) 17 0xffff5bb1
  let b3 := md5FF b2 c3 d3 a3 (x 11) 22 0x895cd7be
  let a4 := md5FF a3 b3 c3 d3 (x 12) 7 0x6b901122
  let d4 := md5FF d3 a4 b3 c3 (x 13) 12 0xfd987193
  let c4 := md5FF c3 d4 a4 b3 (x 14) 17 0xa679438e
  let b4 := md5FF b3 c4 d4 a4 (x 15) 22 0x49b40821
  -- Round 2
  let a5 := md5GG a4 b4 c4 d4 (x 1) 5 0xf61e2562
  let d5 := md5GG d4 a5 b4 c4 (x 6) 9 0xc040b340
  let c5 := md5GG c4 d5 a5 b4 (x 11) 14 0x265e5a51
  let b5 := md5GG b4 c5 d5 a5 (x 0) 20 0xe9b6c7aa
  let a6 := md5GG a5 b5 c5 d5 (x 5) 5 0xd62f105d
  let d6 := md5GG d5 a6 b5 c5 (x 10) 9 0x02441453
  let c6 := md5GG c5 d6 a6 b5 (x 15) 14 0xd8a1e681
  let b6 := md5GG b5 c6 d6 a6 (x 4) 20 0xe7d3fbc8
  let a7 := md5GG a6 b6 c6 d6 (x 9) 5 0x21e1cde6
  let d7 := md5GG d6 a7 b6 c6 (x 14) 9 0xc33707d6
  let c7 := md5GG c6 d7 a7 b6 (x 3) 14 0xf4d50d87
  let b7 := md5GG b6 c7 d7 a7 (x 8) 20 0x455a14ed
  let a8 := md5GG a7 b7 c7 d7 (x 13) 5 0xa9e3e905
  let d8 := md5GG d7 a8 b7 c7 (x 2) 9 0xfcefa3f8
  let c8 := md5GG c7 d8 a8 b7 (x 7) 14 0x676f02d9
  let b8 := md5GG b7 c8 d8 a8 (x 12) 20 0x8d2a4c8a
  -- Round 3
  let a9 := md5HH a8 b8 c8 d8 (x 5) 4 0xfffa3942
  let d9 := md5HH d8 a9 b8 c8 (x 8) 11 0x8771f681
  let c9 := md5HH c8 d9 a9 b8 (x 11) 16 0x6d9d6122
  let b9 := md5HH b8 c9 d9 a9 (x 14) 23 0xfde5380c
  let a10 := md5HH a9 b9 c9 d9 (x 1) 4 0xa4beea44
  let d10 := md5HH d9 a10 b9 c9 (x 4) 11 0x4bdecfa9
  let c10 := md5HH c9 d10 a10 b9 (x 7) 16 0xf6bb4b60
  let b10 := md5HH b9 c10 d10 a10 (x 10) 23 0xbebfbc70
  let a11 := md5HH a10 b10 c10 d10 (x 13) 4 0x289b7ec6
  let d11 := md5HH d10 a11 b10 c10 (x 0) 11 0xeaa127fa
  let c11 := md5HH c10 d11 a11 b10 (x 3) 16 0xd4ef3085
  let b11 := md5HH b10 c11 d11 a11 (x 6) 23 0x04881d05
  let a12 := md5HH a11 b11 c11 d11 (x 9) 4 0xd9d4d039
  let d12 := md5HH d11 a12 b11 c11 (x 12) 11 0xe6db99e5
  let c12 := md5HH c11 d12 a12 b11 (x 15) 16 0x1fa27cf8
  let b12 := md5HH b11 c12 d12 a12 (x 2) 23 0xc4ac5665
  -- Round 4
  let a13 := md5II a12 b12 c12 d12 (x 0) 6 0xf4292244
  let d13 := md5II d12 a13 b12 c12 (x 7) 10 0x432aff97
  let c13 := md5II c12 d13 a13 b12 (x 14) 15 0xab9423a7
  let b13 := md5II b12 c13 d13 a13 (x 5) 21 0xfc93a039
  let a14 := md5II a13 b13 c13 d13 (x 12) 6 0x655b59c3
  let d14 := md5II d13 a14 b13 c13 (x 3) 10 0x8f0ccc92
  let c14 := md5II c13 d14 a14 b13 (x 10) 15 0xffeff47d
  let b14 := md5II b13 c14 d14 a14 (x 1) 21 0x85845dd1
  let a15 := md5II a14 b14 c14 d14 (x 8) 6 0x6fa87e4f
  let d15 := md5II d14 a15 b14 c14 (x 15) 10 0xfe2ce6e0
  let c15 := md5II c14 d15 a15 b14 (x 6) 15 0xa3014314
  let b15 := md5II b14 c15 d15 a15 (x 13) 21 0x4e0811a1
  let a16 := md5II a15 b15 c15 d15 (x 4) 6 0xf7537e82
  let d16 := md5II d15 a16 b15 c15 (x 11) 10 0xbd3af235
  let c16 := md5II c15 d16 a16 b15 (x 2) 15 0x2ad7d2bb
  let b16 := md5II b15 c16 d16 a16 (x 9) 21 0xeb86d391
  (m32 (a0 + a16), m32 (b0 + b16), m32 (c0 + c16), m32 (d0 + d16))

/-- Process `n` full 64-byte blocks from the front of `data`. -/
def md5_loop : Nat → (Nat × Nat × Nat × Nat) → List Nat → Nat × Nat × Nat × Nat
  | 0, st, _ => st
  | Nat.succ n, st, data => md5_loop n (md5_transform st (data.take 64)) (data.drop 64)

/-- The four little-endian bytes of one 32-bit state word
(`(state >> (k*8)) & 0xff` for `k = 0..3`). -/
def md5WordBytes (s : Nat) : List Nat :=
  [s &&& 255, (s >>> 8) &&& 255, (s >>> 16) &&& 255, (s >>> 24) &&& 255]

/-- The 16 digest bytes of `md5_encode` (QuickJsEngine.cpp): initialise the
state, process the full blocks, pad the remainder with `0x80`, zeros and
the 64-bit little-endian bit count, and transform the final block(s). -/
def md5_digest (data : List Nat) : List Nat :=
  let len := data.length
  let nblocks := len / 64
  let st := md5_loop nblocks (0x67452301, 0xefcdab89, 0x98badcfe, 0x10325476) data
  let index0 := len - 64 * nblocks
  let rest := data.drop (64 * nblocks)
  let count := 512 * nblocks + 8 * index0
  let buf1 := rest ++ [0x80]
  let index1 := index0 + 1
  let stBuf :=
    if 56 < index1 then
      (md5_transform st (buf1 ++ List.replicate (64 - index1) 0), ([] : List Nat), 0)
    else (st, buf1, index1)
  let buf3 := stBuf.2.1 ++ List.replicate (56 - stBuf.2.2) 0
  let buf4 := buf3 ++ (List.range 8).map (fun j => (count >>> (j * 8)) &&& 255)
  let stF := md5_transform stBuf.1 buf4
  md5WordBytes stF.1 ++ md5WordBytes stF.2.1 ++ md5WordBytes stF.2.2.1 ++ md5WordBytes stF.2.2.2

/-- Lowercase hexadecimal digit for `n < 16`. -/
def hexChar (n : Nat) : Char :=
  if n < 10 then Char.ofNat (48 + n) else Char.ofNat (87 + n)

/-- Two-digit zero-padded lowercase hex rendering of one byte
(`oss << hex << setfill('0') << setw(2) << byte`). -/
def byteHex (b : Nat) : List Char := [hexChar (b / 16 % 16), hexChar (b % 16)]

/-- `md5_encode` (QuickJsEngine.cpp): the 32-character lowercase hex digest. -/
def md5_encode (data : List Nat) : List Char := ((md5_digest data).map byteHex).flatten

/-- `QuickJsEngine::js_java_md5Encode`: the bridge returns the full hex
digest of its string argument (modelled as a byte list). -/
def js_java_md5Encode (s : List Nat) : List Char := md5_encode s

/-- `QuickJsEngine::js_java_md5Encode16`: the bridge returns
`md5.substr(8, 16)`, the middle 16 hex digits. -/
def js_java_md5Encode16 (s : List Nat) : List Char := ((md5_encode s).drop 8).take 16

/-- `reader::JsEngine::js_md5Encode16` (JsEngine.cpp), over an abstract
hash function (that file delegates the digest itself to a platform
library): take `hash.substr(8, 16)` only when the digest has at least 24
characters, otherwise return it unchanged. -/
def jsengine_md5Encode16 (hash : List Nat → List Char) (s : List Nat) : List Char :=
  let h := hash s
  if 24 ≤ h.length then (h.drop 8).take 16 else h

/-! ## Helper lemmas -/

/-- The per-item JS loop with no stop signal: the output extends the
accumulated vector by one entry per item (the evaluation result, or the
item itself on engine failure), the error flag records whether any item
failed, and the last error is the message of the last failing item. -/
theorem legado_jsLoop_characterisation
    (jsEval : List Char → List Char → Except (List Char) (List Char))
    (jsRule : List Char) :
    ∀ (base : List (List Char)) (st : TailState),
      legado_jsLoop jsEval jsRule false base st =
        ⟨st.value ++ base.map (fun item =>
            match jsEval item jsRule with | Except.ok r => r | Except.error _ => item),
          st.hasError || base.any (fun item =>
            match jsEval item jsRule with | Except.ok _ => false | Except.error _ => true),
          base.foldl (fun acc item =>
            match jsEval item jsRule with | Except.ok _ => acc | Except.error e => e)
            st.lastError⟩ := by
  intro base
  induction base with
  | nil => intro st; simp [legado_jsLoop]
  | cons item rest ih =>
    intro st
    simp only [legado_jsLoop, if_neg (by simp : ¬ (false = true))]
    cases h : jsEval item jsRule with
    | ok r =>
      dsimp only
      rw [ih]
      simp [h, List.map_cons, List.any_cons, List.foldl_cons]
    | error e =>
      dsimp only
      rw [ih]
      simp [h, List.map_cons, List.any_cons, List.foldl_cons]

/-- The fuelled template scan is independent of the fuel once the fuel
covers the string's length. -/
theorem processTemplateAux_fuel (ev : List Char → List Char) :
    ∀ (f1 f2 : Nat) (t : List Char), t.length ≤ f1 → t.length ≤ f2 →
      processTemplateAux ev f1 t = processTemplateAux ev f2 t := by
  intro f1
  induction f1 with
  | zero =>
    intro f2 t h1 _
    have ht : t = [] := List.length_eq_zero.mp (Nat.le_zero.mp h1)
    subst ht
    cases f2 with
    | zero => rfl
    | succ n => simp [processTemplateAux, show findSub [] tOpen = none from by decide]
  | succ f1x ih =>
    intro f2 t h1 h2
    cases f2 with
    | zero =>
      have ht : t = [] := List.length_eq_zero.mp (Nat.le_zero.mp h2)
      subst ht
      simp [processTemplateAux, show findSub [] tOpen = none from by decide]
    | succ f2x =>
      simp only [processTemplateAux]
      cases hs : findSub t tOpen with
      | none => rfl
      | some start =>
        cases hr : findSub (t.drop start) tClose with
        | none => simp [hr]
        | some r =>
          have hb : (t.drop (start + r + 2)).length ≤ f1x := by
            rw [List.length_drop]; omega
          have hb2 : (t.drop (start + r + 2)).length ≤ f2x := by
            rw [List.length_drop]; omega
          simp only [hr]
          rw [ih f2x (t.drop (start + r + 2)) hb hb2]

/-- A template string with no opening marker is returned unchanged. -/
theorem processTemplate_no_open (ev : List Char → List Char) (t : List Char)
    (h : findSub t tOpen = none) : processTemplate ev t = t := by
  cases hn : t.length with
  | zero => simp [processTemplate, hn, processTemplateAux]
  | succ n => simp [processTemplate, hn, processTemplateAux, h]

/-- An opening marker with no closing marker after it: the remainder,
including the lone opening marker, is copied verbatim. -/
theorem processTemplate_unterminated (ev : List Char → List Char) (t : List Char)
    (s : Nat) (h1 : findSub t tOpen = some s)
    (h2 : findSub (t.drop s) tClose = none) : processTemplate ev t = t := by
  cases hn : t.length with
  | zero =>
    have ht : t = [] := List.length_eq_zero.mp hn
    subst ht
    simp [show findSub [] tOpen = none from by decide] at h1
  | succ n => simp [processTemplate, hn, processTemplateAux, h1, h2]

/-- One step of the fuelled template scan when both markers are found. -/
theorem processTemplateAux_step (ev : List Char → List Char) (fuel : Nat) (t : List Char)
    (start r : Nat) (h1 : findSub t tOpen = some start)
    (h2 : findSub (t.drop start) tClose = some r) :
    processTemplateAux ev (fuel + 1) t =
      t.take start ++ ev ((t.drop (start + 2)).take (r - 2)) ++
        processTemplateAux ev fuel (t.drop (start + r + 2)) := by
  simp only [processTemplateAux, h1, h2]

/-- A complete template span whose markers are the first ones found: the
text before it is copied, the expression between the markers is evaluated,
and scanning continues after the closing marker. -/
theorem processTemplate_span (ev : List Char → List Char) (pre expr post : List Char)
    (h1 : findSub (pre ++ (tOpen ++ (expr ++ (tClose ++ post)))) tOpen = some pre.length)
    (h2 : findSub ((pre ++ (tOpen ++ (expr ++ (tClose ++ post)))).drop pre.length) tClose
            = some (expr.length + 2)) :
    processTemplate ev (pre ++ (tOpen ++ (expr ++ (tClose ++ post)))) =
      pre ++ (ev expr ++ processTemplate ev post) := by
  have hop : tOpen.length = 2 := by decide
  have hcl : tClose.length = 2 := by decide
  set t := pre ++ (tOpen ++ (expr ++ (tClose ++ post))) with htdef
  have hlen : t.length = pre.length + (expr.length + (post.length + 4)) := by
    simp [htdef, hop, hcl]
    omega
  set n := pre.length + (expr.length + (post.length + 3)) with hndef
  have hfuel : t.length = n + 1 := by omega
  have hstart : processTemplate ev t = processTemplateAux ev (n + 1) t := by
    rw [processTemplate, hfuel]
  rw [hstart, processTemplateAux_step ev n t pre.length (expr.length + 2) h1 h2]
  have htake : t.take pre.length = pre := by
    rw [htdef]
    exact List.take_left pre _
  have hdrop2 : t.drop (pre.length + 2) = expr ++ (tClose ++ post) := by
    rw [htdef,
      show pre ++ (tOpen ++ (expr ++ (tClose ++ post)))
          = (pre ++ tOpen) ++ (expr ++ (tClose ++ post)) by simp [List.append_assoc],
      show pre.length + 2 = (pre ++ tOpen).length by simp [hop]]
    exact List.drop_left _ _
  have hexpr : (t.drop (pre.length + 2)).take (expr.length + 2 - 2) = expr := by
    rw [hdrop2, show expr.length + 2 - 2 = expr.length by omega]
    exact List.take_left expr _
  have hpost : t.drop (pre.length + (expr.length + 2) + 2) = post := by
    rw [htdef,
      show pre ++ (tOpen ++ (expr ++ (tClose ++ post)))
          = (pre ++ (tOpen ++ (expr ++ tClose))) ++ post by simp [List.append_assoc],
      show pre.length + (expr.length + 2) + 2 = (pre ++ (tOpen ++ (expr ++ tClose))).length by
        simp [hop, hcl]
        omega]
    exact List.drop_left _ _
  rw [htake, hexpr, hpost,
    processTemplateAux_fuel ev n post.length post (by omega) (Nat.le_refl _)]
  have hpt : processTemplateAux ev post.length post = processTemplate ev post := rfl
  rw [hpt]
  simp [List.append_assoc]

/-- Position of a character appended behind a list that does not contain it. -/
theorem findChar_append_not_mem (sel : List Char) (c : Char) (a : List Char)
    (h : c ∉ sel) : findChar (sel ++ c :: a) c = some sel.length := by
  induction sel with
  | nil => simp [findChar]
  | cons x tl ih =>
    have hx : ¬ x = c := by
      intro he
      exact h (by rw [he]; exact List.mem_cons_self c tl)
    rw [List.cons_append, findChar, if_neg hx,
      ih (fun hm => h (List.mem_cons_of_mem x hm))]
    simp

/-- The compiled selector body always starts with a slash. -/
theorem legado_cssBody_ne_nil (selector : List Char) : legado_cssBody selector ≠ [] := by
  unfold legado_cssBody
  rw [show cs "/" = ['/'] from by decide]
  simp

/-- The CSS→XPath conversion never returns the empty string. -/
theorem legado_CssToXPath_ne_nil (css : List Char) : legado_CssToXPath css ≠ [] := by
  unfold legado_CssToXPath
  intro h
  exact legado_cssBody_ne_nil _ (List.append_eq_nil.mp h).1

/-! ## Claims -/

/-- C1: the rule-chain splitter (`JsRuleProcessor::ParseRule`) obeys the
fixed precedence of spec section 4.1 — `@js:` anywhere wins and splits at
its position; else a `<js>`/`</js>` pair with the open tag strictly before
the close tag takes the text between the tags; else a rule containing both
template markers is a template with empty base and the whole rule as tail;
else the whole rule is the base — and in particular
split("a@js:b") = ("a","b",false), split("<js>x</js>") = ("","x",false),
split("{{x}}") = ("","{{x}}",true), split("") = ("","",false). -/
theorem C1_splitter_follows_spec :
    (∀ rule, jsrp_ParseRule rule = split_spec rule)
    ∧ jsrp_ParseRule (cs "a@js:b") = (cs "a", cs "b", false)
    ∧ jsrp_ParseRule (cs "<js>x</js>") = ([], cs "x", false)
    ∧ jsrp_ParseRule (cs "\x7b\x7bx\x7d\x7d") = ([], cs "\x7b\x7bx\x7d\x7d", true)
    ∧ jsrp_ParseRule [] = ([], [], false) := by
  refine ⟨?_, by decide, by decide, by decide, by decide⟩
  intro rule
  by_cases hr : rule = []
  · subst hr; decide
  · unfold jsrp_ParseRule split_spec
    rw [if_neg hr]
    cases h1 : findSub rule (cs "@js:") with
    | some p => simp [containsSub, h1]
    | none =>
      simp only [containsSub, h1, Option.isSome_none, Bool.false_eq_true, if_false]
      cases h2 : findSub rule (cs "<js>") with
      | some s =>
        cases h3 : findSub rule (cs "</js>") with
        | some e =>
          by_cases hse : s < e
          · simp [h2, h3, hse, Nat.sub_sub]
          · simp [h2, h3, hse]
        | none => simp [h2, h3]
      | none => simp [h2]

/-- C3: the CSS→XPath compiler maps "#id" to "//*[@id='id']", ".cls" to
"//*[contains(@class,'cls')]", and "div.cls#id[data-x=1]@text" to
"//div[contains(@class,'cls') and @id='id' and @data-x='1']/text()"; the
bracketed predicate joins class, id and attribute conditions with " and "
in that fixed order, and the whole-selector `@attrName` suffix appends
"/text()" for `text`, nothing for `html`/`innerHtml`, and "/@attrName"
otherwise. -/
theorem C3_css_compiler_exactness :
    legado_CssToXPath (cs "#id") = cs "//*[@id=\x27id\x27]"
    ∧ legado_CssToXPath (cs ".cls") = cs "//*[contains(@class,\x27cls\x27)]"
    ∧ legado_CssToXPath (cs "div.cls#id[data-x=1]@text")
        = cs "//div[contains(@class,\x27cls\x27) and @id=\x27id\x27 and @data-x=\x271\x27]/text()"
    ∧ (∀ sel a, '@' ∉ sel → sel ≠ [] →
        legado_CssToXPath (sel ++ '@' :: a) = legado_cssBody sel ++ legado_attrSuffix a)
    ∧ (∀ a, a ≠ [] →
        legado_attrSuffix a =
          if a = cs "text" then cs "/text()"
          else if a = cs "html" ∨ a = cs "innerHtml" then []
          else cs "/@" ++ a)
    ∧ (∀ c i a v, c ≠ [] → i ≠ [] → a ≠ [] → v ≠ [] →
        legado_buildPredicate c i a v =
          cs "contains(@class,\x27" ++ c ++ cs "\x27)" ++ cs " and " ++
            cs "@id=\x27" ++ i ++ cs "\x27" ++ cs " and " ++
            cs "@" ++ a ++ cs "=\x27" ++ v ++ cs "\x27") := by
  refine ⟨by decide, by decide, by decide, ?_, ?_, ?_⟩
  · intro sel a hmem hne
    have hpos : 0 < sel.length := List.length_pos.mpr hne
    have htake : (sel ++ '@' :: a).take sel.length = sel := List.take_left sel _
    have hdrop : (sel ++ '@' :: a).drop (sel.length + 1) = a := by
      rw [show sel ++ '@' :: a = (sel ++ ['@']) ++ a by simp,
        show sel.length + 1 = (sel ++ ['@']).length by simp]
      exact List.drop_left _ _
    unfold legado_CssToXPath
    rw [findChar_append_not_mem sel '@' a hmem]
    simp [hpos, htake, hdrop]
  · intro a h
    unfold legado_attrSuffix
    simp [h]
  · intro c i a v h1 h2 h3 h4
    have hA : cs "contains(@class,\x27" ≠ [] := by decide
    unfold legado_buildPredicate
    simp [h1, h2, h3, h4, List.append_eq_nil, hA, List.append_assoc]

/-- C3 witness: the general suffix and predicate-order clauses
instantiated at concrete inputs. -/
theorem C3_css_compiler_exactness_witness :
    legado_CssToXPath (cs "div" ++ '@' :: cs "href")
        = legado_cssBody (cs "div") ++ legado_attrSuffix (cs "href")
    ∧ legado_buildPredicate (cs "c") (cs "i") (cs "a") (cs "v")
        = cs "contains(@class,\x27" ++ cs "c" ++ cs "\x27)" ++ cs " and " ++
            cs "@id=\x27" ++ cs "i" ++ cs "\x27" ++ cs " and " ++
            cs "@" ++ cs "a" ++ cs "=\x27" ++ cs "v" ++ cs "\x27" := by
  refine ⟨?_, ?_⟩
  · exact C3_css_compiler_exactness.2.2.2.1 (cs "div") (cs "href") (by decide) (by decide)
  · exact C3_css_compiler_exactness.2.2.2.2.2 (cs "c") (cs "i") (cs "a") (cs "v")
      (by decide) (by decide) (by decide) (by decide)

/-- C4: evaluating the compiler at the failing input — the two parts of
"a b" are joined by a single `/` child step (result "//a/b"), not by the
descendant-only "//" join (result "//a//b") that the claim states. -/
theorem C4_parts_joined_by_single_slash :
    legado_CssToXPath (cs "a b") = cs "//a/b"
    ∧ legado_CssToXPath (cs "a b") ≠ cs "//a//b" := by decide

/-- C7: evaluating the classifier at the failing input — a base beginning
with lowercase "@xpath:" is routed to the JSOUP-default branch (and then
through the CSS→XPath converter, yielding "//@xpath://a"), not to the
XPath engine, although the converter's `is_xpath_rule` accepts the
lowercase spelling and uppercase "@XPath:" and bare "//" are classified as
XPath. -/
theorem C7_lowercase_xpath_misclassified :
    legado_classify (cs "@xpath://a") = (SelectorKind.jsoupDefault, cs "@xpath://a")
    ∧ is_xpath_rule (cs "@xpath://a") = true
    ∧ legado_classify (cs "@XPath://a") = (SelectorKind.xpath, cs "//a")
    ∧ legado_classify (cs "//a") = (SelectorKind.xpath, cs "//a")
    ∧ legado_CssToXPath (cs "@xpath://a") = cs "//@xpath://a" := by decide

/-- C9 (amended): the CSS→XPath compiler never fails — for every selector,
including the empty one, it returns a non-empty XPath, and `ParseCssRule`
always delegates to the XPath engine; its compile-error branch is
unreachable. -/
theorem C9_compiler_never_fails :
    ∀ css, legado_CssToXPath css ≠ []
      ∧ ∀ xpE html, legado_ParseCssRule xpE html css
          = legado_ParseXPathRule xpE html (legado_CssToXPath css) := by
  intro css
  refine ⟨legado_CssToXPath_ne_nil css, ?_⟩
  intro xpE html
  unfold legado_ParseCssRule
  simp [legado_CssToXPath_ne_nil css]

/-- C9 counterexample: the claim says the compiler fails exactly on a
selector that is empty after trimming; on the empty selector the code
instead returns "/" and `ParseCssRule` reports no error. -/
theorem C9_empty_selector_no_error :
    legado_CssToXPath [] = cs "/"
    ∧ legado_ParseCssRule (fun _ _ => (0, [cs "r"])) (cs "x") []
        = ⟨0, [cs "r"], false, []⟩ := by decide

/-- C2: with no stop signal, the tail phase applies the script tail to each
base result in order with `result` rebound to the element; an engine
failure appends the original element instead of aborting, records the
engine's message as the last error and sets the had-error flag; in
particular, for base results ["A","B"] from the base phase and a tail that
throws only on "B", the pipeline returns [transformed "A", "B"] with the
error flag set. -/
theorem C2_tail_degrades_on_error :
    (∀ (jsEval : List Char → List Char → Except (List Char) (List Char))
        (jsRule : List Char) (baseResults : List (List Char)),
      legado_jsLoop jsEval jsRule false baseResults ⟨[], false, []⟩ =
        ⟨baseResults.map (fun item =>
            match jsEval item jsRule with | Except.ok r => r | Except.error _ => item),
          baseResults.any (fun item =>
            match jsEval item jsRule with | Except.ok _ => false | Except.error _ => true),
          baseResults.foldl (fun acc item =>
            match jsEval item jsRule with | Except.ok _ => acc | Except.error e => e) []⟩)
    ∧ legado_ParseRule
        (fun _ xpath => if xpath = cs "//x" then (0, [cs "A", cs "B"]) else (1, []))
        (fun item code =>
          if code = cs "t" ∧ item = cs "B" then Except.error (cs "err")
          else Except.ok (item ++ cs "!"))
        (cs "<html>") (cs "//x@js:t") false
      = ⟨0, [cs "A!", cs "B"], true, cs "err"⟩ := by
  constructor
  · intro jsEval jsRule baseResults
    rw [legado_jsLoop_characterisation]
    simp
  · decide

/-- C5: a base-phase failure (non-zero return) aborts the whole call — the
return code propagates, the output list is empty (no partial base
results), and the JS tail loop is never entered. -/
theorem C5_base_failure_is_fatal
    (xpE : List Char → List Char → Int × List (List Char))
    (jsEval : List Char → List Char → Except (List Char) (List Char))
    (html rule : List Char) (stop : Bool)
    (h1 : rule ≠ [])
    (h2 : (legado_basePhase xpE jsEval html (legado_SplitRule rule).1).ret ≠ 0) :
    legado_ParseRule xpE jsEval html rule stop =
      ⟨(legado_basePhase xpE jsEval html (legado_SplitRule rule).1).ret, [],
        (legado_basePhase xpE jsEval html (legado_SplitRule rule).1).hasError,
        (legado_basePhase xpE jsEval html (legado_SplitRule rule).1).lastError⟩ := by
  unfold legado_ParseRule
  simp [h1, h2]

/-- C5 witness: a failing XPath engine on the rule "//x@js:f" yields
return code 2, no results, and the tail "f" is never evaluated. -/
theorem C5_base_failure_is_fatal_witness :
    legado_ParseRule (fun _ _ => (2, [])) (fun _ _ => Except.ok [])
      (cs "h") (cs "//x@js:f") false = ⟨2, [], false, []⟩ := by
  have h := C5_base_failure_is_fatal (fun _ _ => (2, [])) (fun _ _ => Except.ok [])
    (cs "h") (cs "//x@js:f") false (by decide) (by decide)
  exact h.trans (by decide)

/-- C6 (amended): for a non-empty rule whose split base part is empty, the
base phase yields the single-element list holding the whole input content;
the entirely empty rule instead returns success immediately with an empty
result list. -/
theorem C6_empty_base_passthrough
    (xpE : List Char → List Char → Int × List (List Char))
    (jsEval : List Char → List Char → Except (List Char) (List Char))
    (html rule : List Char) (stop : Bool)
    (h1 : rule ≠ []) (h2 : (legado_SplitRule rule).1 = []) :
    legado_ParseRule xpE jsEval html rule stop =
      (if (legado_SplitRule rule).2 ≠ [] then
        let st := legado_jsLoop jsEval (legado_SplitRule rule).2 stop [html] ⟨[], false, []⟩
        (⟨0, st.value, st.hasError, st.lastError⟩ : PhaseOut)
      else ⟨0, [html], false, []⟩) := by
  unfold legado_ParseRule
  rw [if_neg h1]
  simp [h2, legado_basePhase]

/-- C6 witness: the rule "@js:f" (empty base, non-empty tail) applied to
content "HTML" runs the tail on the single base result equal to the whole
content. -/
theorem C6_empty_base_passthrough_witness :
    legado_ParseRule (fun _ _ => (0, [])) (fun _ _ => Except.ok (cs "ok"))
      (cs "HTML") (cs "@js:f") false = ⟨0, [cs "ok"], false, []⟩ := by
  have h := C6_empty_base_passthrough (fun _ _ => (0, [])) (fun _ _ => Except.ok (cs "ok"))
    (cs "HTML") (cs "@js:f") false (by decide) (by decide)
  exact h.trans (by decide)

/-- C6 counterexample: on the entirely empty rule the run returns success
with an empty result list, not the single-element list holding the whole
input content. -/
theorem C6_empty_rule_returns_nothing :
    legado_ParseRule (fun _ _ => (0, [])) (fun _ _ => Except.ok []) (cs "hi") [] false
        = ⟨0, [], false, []⟩
    ∧ (⟨0, [], false, []⟩ : PhaseOut).results ≠ [cs "hi"] := by decide

/-- C8: the template expander returns a string with no opening marker
unchanged; it evaluates each complete template span left to right,
replacing it with the script engine's string result (so
expand("a{{1+1}}b") = "a2b" when the engine evaluates "1+1" to "2"); and
an opening marker with no later closing marker makes it copy the
remainder, including the lone opening marker, verbatim without error (so
expand("a{{x") = "a{{x"). -/
theorem C8_template_expander :
    (∀ (ev : List Char → List Char) t, findSub t tOpen = none →
      processTemplate ev t = t)
    ∧ (∀ (ev : List Char → List Char) pre expr post,
        findSub (pre ++ (tOpen ++ (expr ++ (tClose ++ post)))) tOpen = some pre.length →
        findSub ((pre ++ (tOpen ++ (expr ++ (tClose ++ post)))).drop pre.length) tClose
            = some (expr.length + 2) →
        processTemplate ev (pre ++ (tOpen ++ (expr ++ (tClose ++ post)))) =
          pre ++ (ev expr ++ processTemplate ev post))
    ∧ (∀ (ev : List Char → List Char) t s, findSub t tOpen = some s →
        findSub (t.drop s) tClose = none → processTemplate ev t = t)
    ∧ (∀ (ev : List Char → List Char), ev (cs "1+1") = cs "2" →
        processTemplate ev (cs "a\x7b\x7b1+1\x7d\x7db") = cs "a2b")
    ∧ (∀ (ev : List Char → List Char),
        processTemplate ev (cs "a\x7b\x7bx") = cs "a\x7b\x7bx") := by
  refine ⟨processTemplate_no_open, processTemplate_span, processTemplate_unterminated, ?_, ?_⟩
  · intro ev hev
    have hsplit : cs "a\x7b\x7b1+1\x7d\x7db"
        = cs "a" ++ (tOpen ++ (cs "1+1" ++ (tClose ++ cs "b"))) := by decide
    rw [hsplit, processTemplate_span ev (cs "a") (cs "1+1") (cs "b") (by decide) (by decide),
      processTemplate_no_open ev (cs "b") (by decide), hev]
    decide
  · intro ev
    exact processTemplate_unterminated ev (cs "a\x7b\x7bx") 1 (by decide) (by decide)

/-- C8 witness: the span and passthrough clauses instantiated with a
concrete engine that evaluates "1+1" to "2". -/
theorem C8_template_expander_witness :
    processTemplate (fun e => if e = cs "1+1" then cs "2" else []) (cs "a\x7b\x7b1+1\x7d\x7db")
        = cs "a2b"
    ∧ processTemplate (fun e => if e = cs "1+1" then cs "2" else []) (cs "plain")
        = cs "plain" := by
  refine ⟨?_, ?_⟩
  · exact C8_template_expander.2.2.2.1 (fun e => if e = cs "1+1" then cs "2" else [])
      (by decide)
  · exact C8_template_expander.1 (fun e => if e = cs "1+1" then cs "2" else []) (cs "plain")
      (by decide)

/-- Each digest byte renders as exactly two characters. -/
theorem byteHex_length (b : Nat) : (byteHex b).length = 2 := by
  simp [byteHex]

/-- Rendering a byte list in hex doubles its length. -/
theorem hex_flatten_length (l : List Nat) : ((l.map byteHex).flatten).length = 2 * l.length := by
  induction l with
  | nil => simp
  | cons b t ih => simp [ih, byteHex]; omega

/-- The MD5 digest always has 16 bytes. -/
theorem md5_digest_length (data : List Nat) : (md5_digest data).length = 16 := by
  unfold md5_digest
  simp [md5WordBytes]

/-- Every lowercase hex digit of an index below 16 is in the hex alphabet. -/
theorem hexChar_mem : ∀ n : Fin 16, hexChar n.val ∈ cs "0123456789abcdef" := by decide

/-- C10: the script bridge's md5Encode16 equals the 16-character substring
at offset 8 of md5Encode — the middle 16 hex digits of the 32-character
lowercase digest — and the JsEngine variant (whose guard requires at least
24 digest characters) agrees for every 32-character digest function. -/
theorem C10_md5Encode16_is_middle :
    (∀ s, (js_java_md5Encode s).length = 32
      ∧ js_java_md5Encode16 s = ((js_java_md5Encode s).drop 8).take 16
      ∧ (js_java_md5Encode16 s).length = 16
      ∧ ∀ c ∈ js_java_md5Encode s, c ∈ cs "0123456789abcdef")
    ∧ (∀ (hash : List Nat → List Char) s, (hash s).length = 32 →
        jsengine_md5Encode16 hash s = ((hash s).drop 8).take 16) := by
  constructor
  · intro s
    have hlen : (js_java_md5Encode s).length = 32 := by
      unfold js_java_md5Encode md5_encode
      rw [hex_flatten_length, md5_digest_length]
    refine ⟨hlen, rfl, ?_, ?_⟩
    · unfold js_java_md5Encode16
      rw [List.length_take, List.length_drop]
      unfold js_java_md5Encode at hlen
      omega
    · intro c hc
      unfold js_java_md5Encode md5_encode at hc
      rw [List.mem_flatten] at hc
      obtain ⟨l, hl, hcl⟩ := hc
      rw [List.mem_map] at hl
      obtain ⟨b, _, hb⟩ := hl
      subst hb
      rw [byteHex] at hcl
      simp only [List.mem_cons, List.not_mem_nil, or_false] at hcl
      rcases hcl with h | h
      · rw [h]
        exact hexChar_mem ⟨b / 16 % 16, Nat.mod_lt _ (by omega)⟩
      · rw [h]
        exact hexChar_mem ⟨b % 16, Nat.mod_lt _ (by omega)⟩
  · intro hash s h
    simp [jsengine_md5Encode16, h]

/-- C10 witness: the JsEngine wrapper applied to a concrete 32-character
digest function returns the middle 16 characters. -/
theorem C10_md5Encode16_is_middle_witness :
    jsengine_md5Encode16 (fun _ => cs "0123456789abcdef0123456789abcdef") []
      = cs "89abcdef01234567" := by
  have h := C10_md5Encode16_is_middle.2 (fun _ => cs "0123456789abcdef0123456789abcdef") []
    (by decide)
  exact h.trans (by decide)
